import Mathlib

/-!
Shallow embedding of the version / deployment ledger core of the
`tfvarenv` command-line tool, together with proofs of the specification
claims about it.

Modelling conventions:
  * `time.Time` values are modelled as `Int` instants (only ordering and
    zero-ness of timestamps matter to the embedded code).
  * The object store is modelled per ledger key by a `DownloadOutcome`:
    what `awsClient.DownloadFile` yields at that key.  `StorageErr`
    distinguishes the not-found case from network/permission failures;
    the Go code itself only ever tests `err != nil`, which the embedding
    reproduces faithfully (both error kinds take the same branch).
  * `json.Unmarshal` of a ledger object is modelled by `LedgerObject`:
    a stored object either decodes as a version document, decodes as a
    history document, or is garbage (undecodable).
  * Functions that write a ledger object back (`UploadFile` inside
    `AddVersion` / `saveHistory`) are modelled with the store accepting
    the write: the resulting `DownloadOutcome` is the freshly written
    document.  Workflow-level results additionally track whether a
    ledger write was performed at all.
  * Go string slicing `s[:8]` panics when the string is shorter than 8;
    it is modelled by `goStringSlice`, with `none` standing for the
    panic.
-/

namespace Tfvarenv

/-- Embeds `config.EnvironmentS3Config` (src/config/config_types.go).
The source field `Prefix` is named `prefixPath` here. -/
structure EnvironmentS3Config where
  bucket : String
  prefixPath : String
  tfVarsKey : String
deriving DecidableEq, Repr

/-- Embeds `config.AWSConfig`. -/
structure AWSConfig where
  accountID : String
  region : String
deriving DecidableEq, Repr

/-- Embeds `config.LocalConfig`. -/
structure LocalConfig where
  tfVarsPath : String
deriving DecidableEq, Repr

/-- Embeds `config.DeploymentConfig`. -/
structure DeploymentConfig where
  autoBackup : Bool
  requireApproval : Bool
deriving DecidableEq, Repr

/-- Embeds `config.BackendConfig`. -/
structure BackendConfig where
  bucket : String
  key : String
  region : String
deriving DecidableEq, Repr

/-- Embeds `config.Environment` (src/config/config_types.go).
The source field `Local` is named `localCfg` here. -/
structure Environment where
  name : String
  description : String
  s3 : EnvironmentS3Config
  aws : AWSConfig
  localCfg : LocalConfig
  deployment : DeploymentConfig
  backend : BackendConfig
deriving DecidableEq, Repr

/-- Embeds `Environment.GetS3Path`. -/
def Environment.getS3Path (e : Environment) : String :=
  e.s3.prefixPath ++ "/" ++ e.s3.tfVarsKey

/-- Embeds `Environment.GetVersionMetadataKey`. -/
def Environment.getVersionMetadataKey (e : Environment) : String :=
  e.s3.prefixPath ++ "/." ++ e.s3.tfVarsKey ++ ".versions.json"

/-- Embeds `Environment.GetDeploymentHistoryKey`. -/
def Environment.getDeploymentHistoryKey (e : Environment) : String :=
  e.s3.prefixPath ++ "/." ++ e.name ++ ".deployments.json"

/-- Embeds `version.Version` (src/utils/version/types.go). -/
structure Version where
  versionID : String
  hash : String
  timestamp : Int
  description : String
  uploadedBy : String
  size : Int
  metadata : List (String × String)
deriving DecidableEq, Repr

/-- Embeds the anonymous `Environment` struct nested in
`version.VersionManagement`. -/
structure ManagementEnvironment where
  name : String
  s3Path : String
deriving DecidableEq, Repr

/-- Embeds `version.VersionManagement` (src/utils/version/types.go). -/
structure VersionManagement where
  formatVersion : String
  lastUpdated : Int
  environment : ManagementEnvironment
  versions : List Version
  latestVersionID : String
deriving DecidableEq, Repr

/-- Embeds `version.QueryOptions`.  The `time.Time` zero value used by
`IsZero` is modelled by `Option.none`. -/
structure QueryOptions where
  since : Option Int := none
  before : Option Int := none
  limit : Int := 0
  sortByDate : Bool := false
  latestOnly : Bool := false
  searchText : String := ""
deriving DecidableEq, Repr

/-- Embeds `deployment.Record` (src/utils/deployment/types.go). -/
structure Record where
  timestamp : Int
  versionID : String
  deployedBy : String
  command : String
  status : String
  environment : String
  parameters : List (String × String)
  duration : Int
  errorMessage : String
deriving DecidableEq, Repr

/-- Embeds `deployment.LatestInfo`. -/
structure LatestInfo where
  deployment : Option Record
  status : String
  modifiedTime : Int
deriving DecidableEq, Repr

/-- Embeds `deployment.History` (src/utils/deployment/types.go). -/
structure History where
  formatVersion : String
  environment : String
  latestDeployment : Option LatestInfo
  deployments : List Record
deriving DecidableEq, Repr

/-- Embeds the constant `version.ManagementFormatVersion`. -/
def ManagementFormatVersion : String := "1.0"

/-- Embeds the constant `deployment.HistoryFormatVersion`. -/
def HistoryFormatVersion : String := "1.0"

/-- Embeds `deployment.StatusActive`. -/
def StatusActive : String := "active"

/-- Embeds `deployment.StatusDestroyed`. -/
def StatusDestroyed : String := "destroyed"

/-- Result of `awsClient.DownloadFile` on a ledger key.  The Go client
can fail with a not-found error or with a network/permission error; the
embedded callers only test `err != nil`, exactly as the source does. -/
inductive StorageErr where
  | notFound
  | network (msg : String)
  | permission (msg : String)
deriving DecidableEq, Repr

/-- A stored ledger object as seen through `json.Unmarshal`: it decodes
as a version-management document, as a deployment-history document, or
fails to decode. -/
inductive LedgerObject where
  | versionDoc (m : VersionManagement)
  | historyDoc (h : History)
  | garbage (raw : String)
deriving DecidableEq, Repr

/-- What `DownloadFile` yields at a ledger key. -/
inductive DownloadOutcome where
  | err (e : StorageErr)
  | ok (content : LedgerObject)
deriving DecidableEq, Repr

/-- Models `json.Unmarshal(content, &management)` succeeding. -/
def decodeVersionManagement : LedgerObject → Option VersionManagement
  | .versionDoc m => some m
  | _ => none

/-- Models `json.Unmarshal(content, &history)` succeeding. -/
def decodeHistory : LedgerObject → Option History
  | .historyDoc h => some h
  | _ => none

/-- The fresh empty `VersionManagement` literal built both in
`manager.AddVersion` and in `manager.getVersionManagement`
(src/unnamed/part_023). -/
def emptyVersionManagement (env : Environment) (now : Int) : VersionManagement :=
  { formatVersion := ManagementFormatVersion
    lastUpdated := now
    environment := { name := env.name, s3Path := env.getS3Path }
    versions := []
    latestVersionID := "" }

/-- Embeds `manager.getVersionManagement` (src/unnamed/part_023 lines
209-238): any `DownloadFile` error takes the fresh-empty branch (the
source only tests `err != nil`); a downloaded object that fails to
decode is a hard error. -/
def getVersionManagement (env : Environment) (now : Int)
    (dl : DownloadOutcome) : Except String VersionManagement :=
  match dl with
  | .err _ => .ok (emptyVersionManagement env now)
  | .ok content =>
    match decodeVersionManagement content with
    | none => .error "failed to decode version management"
    | some m => .ok m

/-- The management document `AddVersion` starts from: the loaded one, or
a fresh empty one when `getVersionManagement` returned an error. -/
def loadedManagement (env : Environment) (now : Int)
    (dl : DownloadOutcome) : VersionManagement :=
  match getVersionManagement env now dl with
  | .ok m => m
  | .error _ => emptyVersionManagement env now

/-- Embeds the document update performed by `manager.AddVersion`
(src/unnamed/part_023 lines 43-90): prepend the new version, update the
latest-version-id field, refresh the last-updated stamp, and truncate to
100 retained entries. -/
def addVersionDoc (env : Environment) (now : Int) (v : Version)
    (dl : DownloadOutcome) : VersionManagement :=
  let management := loadedManagement env now dl
  let versions := v :: management.versions
  let versions := if versions.length > 100 then versions.take 100 else versions
  { management with
      versions := versions
      latestVersionID := v.versionID
      lastUpdated := now }

/-- State of the version-metadata key after a successful `AddVersion`:
the store now holds the freshly marshalled document. -/
def addVersionStep (env : Environment) (now : Int) (v : Version)
    (dl : DownloadOutcome) : DownloadOutcome :=
  .ok (.versionDoc (addVersionDoc env now v dl))

/-- Models whitespace for `strings.TrimSpace` (ASCII subset). -/
def isSpaceChar (c : Char) : Bool :=
  c == ' ' || c == '\t' || c == '\n' || c == '\r'

/-- Models `strings.TrimSpace`. -/
def goTrimSpace (s : String) : String :=
  String.mk (((s.data.dropWhile isSpaceChar).reverse.dropWhile isSpaceChar).reverse)

/-- ASCII lower-casing of one character. -/
def charToLower (c : Char) : Char :=
  if c.toNat ≥ 65 && c.toNat ≤ 90 then Char.ofNat (c.toNat + 32) else c

/-- Models `strings.ToLower` (ASCII subset). -/
def goToLower (s : String) : String := String.mk (s.data.map charToLower)

/-- Embeds `strings.Contains` over the characters of the strings. -/
def stringsContains (s sub : String) : Bool :=
  (List.range (s.length + 1)).any (fun i => sub.isPrefixOf (s.drop i))

/-- Embeds `manager.matchesFilter` (src/unnamed/part_023). -/
def matchesFilter (v : Version) (opts : QueryOptions) : Bool :=
  (match opts.since with
   | none => true
   | some s => decide (s ≤ v.timestamp)) &&
  (match opts.before with
   | none => true
   | some b => decide (v.timestamp ≤ b)) &&
  (opts.searchText == "" ||
    stringsContains (goToLower v.description) (goToLower opts.searchText))

/-- Insertion step for the timestamp-descending sort used on versions
(`sort.Slice` with `Timestamp.After`). -/
def insertVersionDesc (v : Version) : List Version → List Version
  | [] => [v]
  | x :: xs =>
    if x.timestamp < v.timestamp then v :: x :: xs
    else x :: insertVersionDesc v xs

/-- Timestamp-descending sort on versions. -/
def sortVersionsDesc : List Version → List Version
  | [] => []
  | x :: xs => insertVersionDesc x (sortVersionsDesc xs)

/-- Embeds `manager.filterVersions` (src/unnamed/part_023): a `nil`
options pointer returns the list unchanged; otherwise filter, then sort
by timestamp descending when requested. -/
def filterVersions (versions : List Version)
    (opts : Option QueryOptions) : List Version :=
  match opts with
  | none => versions
  | some o =>
    let filtered := versions.filter (fun v => matchesFilter v o)
    if o.sortByDate then sortVersionsDesc filtered else filtered

/-- Embeds `manager.GetVersions` (src/unnamed/part_023 lines 92-103). -/
def GetVersions (env : Environment) (now : Int) (dl : DownloadOutcome)
    (opts : Option QueryOptions) : Except String (List Version) :=
  match getVersionManagement env now dl with
  | .error e => .error ("failed to get version management: " ++ e)
  | .ok m =>
    let versions := filterVersions m.versions opts
    let versions :=
      match opts with
      | some o => if o.latestOnly && versions.length > 1 then versions.take 1 else versions
      | none => versions
    .ok versions

/-- Embeds `manager.GetLatestVersion` (src/unnamed/part_023 lines
105-119). -/
def GetLatestVersion (env : Environment) (now : Int)
    (dl : DownloadOutcome) : Except String Version :=
  match GetVersions env now dl (some { latestOnly := true }) with
  | .error e => .error e
  | .ok [] => .error "no versions found"
  | .ok (v :: _) => .ok v

/-- Embeds `manager.GetVersion` (src/unnamed/part_023): linear scan by
version id. -/
def GetVersion (env : Environment) (now : Int) (dl : DownloadOutcome)
    (versionID : String) : Except String Version :=
  match getVersionManagement env now dl with
  | .error e => .error ("failed to get version management: " ++ e)
  | .ok m =>
    match m.versions.find? (fun v => v.versionID == versionID) with
    | some v => .ok v
    | none => .error ("version not found: " ++ versionID)

/-- The fresh empty `History` literal built in `manager.GetHistory`
(src/utils/deployment/history.go). -/
def emptyHistory (env : Environment) : History :=
  { formatVersion := HistoryFormatVersion
    environment := env.name
    latestDeployment := none
    deployments := [] }

/-- Embeds `manager.GetHistory` (src/utils/deployment/history.go lines
101-123): any `DownloadFile` error takes the fresh-empty branch (the
source only tests `err != nil`); an undecodable object is a hard
error. -/
def GetHistory (env : Environment) (now : Int)
    (dl : DownloadOutcome) : Except String History :=
  match dl with
  | .err _ => .ok (emptyHistory env)
  | .ok content =>
    match decodeHistory content with
    | none => .error "failed to decode deployment history"
    | some h => .ok h

/-- Insertion step for the timestamp-descending sort used on deployment
records (`sort.Slice` with `Timestamp.After` in `AddRecord`). -/
def insertRecordDesc (r : Record) : List Record → List Record
  | [] => [r]
  | x :: xs =>
    if x.timestamp < r.timestamp then r :: x :: xs
    else x :: insertRecordDesc r xs

/-- Timestamp-descending sort on deployment records. -/
def sortRecordsDesc : List Record → List Record
  | [] => []
  | x :: xs => insertRecordDesc x (sortRecordsDesc xs)

/-- Embeds `manager.AddRecord` (src/utils/deployment/history.go):
load-or-create, append, overwrite the latest pointer with an active
status, sort descending by timestamp, persist.  The returned outcome is
the state of the deployment-history key after the save. -/
def AddRecord (env : Environment) (now : Int) (r : Record)
    (dl : DownloadOutcome) : Except String DownloadOutcome :=
  match GetHistory env now dl with
  | .error e => .error ("failed to get deployment history: " ++ e)
  | .ok h =>
    let deployments := h.deployments ++ [r]
    let newLatest : LatestInfo :=
      { deployment := some r
        status := StatusActive
        modifiedTime := now }
    let updated : History :=
      { h with
          deployments := sortRecordsDesc deployments
          latestDeployment := some newLatest }
    .ok (.ok (.historyDoc updated))

/-- Embeds `manager.MarkAsDestroyed` (src/utils/deployment/history.go
lines 82-99): load-or-create, set the latest pointer status to
destroyed with a fresh modified time, persist; a missing pointer is
replaced by the zero `LatestInfo` value first. -/
def MarkAsDestroyed (env : Environment) (now : Int)
    (dl : DownloadOutcome) : Except String DownloadOutcome :=
  match GetHistory env now dl with
  | .error e => .error ("failed to get deployment history: " ++ e)
  | .ok h =>
    let li : LatestInfo :=
      match h.latestDeployment with
      | none => { deployment := none, status := "", modifiedTime := 0 }
      | some li => li
    let newLatest : LatestInfo :=
      { li with status := StatusDestroyed, modifiedTime := now }
    let updated : History := { h with latestDeployment := some newLatest }
    .ok (.ok (.historyDoc updated))

/-- Embeds `manager.GetLatestDeployment` (src/utils/deployment/history.go
lines 125-140): prefer the latest pointer's embedded record, fall back
to the head of the sorted history, and yield nothing (not an error) on
an empty history. -/
def GetLatestDeployment (env : Environment) (now : Int)
    (dl : DownloadOutcome) : Except String (Option Record) :=
  match GetHistory env now dl with
  | .error e => .error ("failed to get deployment history: " ++ e)
  | .ok h =>
    match h.latestDeployment with
    | some li =>
      match li.deployment with
      | some r => .ok (some r)
      | none =>
        match h.deployments with
        | r :: _ => .ok (some r)
        | [] => .ok none
    | none =>
      match h.deployments with
      | r :: _ => .ok (some r)
      | [] => .ok none

/-- Models Go string slicing `s[:n]`: defined when the string has at
least `n` characters, and a panic (`none`) otherwise. -/
def goStringSlice (s : String) (n : Nat) : Option String :=
  if n ≤ s.length then some (s.take n) else none

/-- Embeds `%v` formatting of a Go bool. -/
def boolString (b : Bool) : String := if b then "true" else "false"

/-- Outcome of one run of the upload workflow `runUpload`
(src/cmd/upload.go): its returned error value, whether the tfvars blob
was pushed to the store, whether the version ledger object was written,
the resulting state of the version-metadata key, and the version-id
prefix the workflow displays (`VersionID[:8]`, `none` = panic). -/
structure UploadOutcome where
  result : Except String Unit
  blobUploaded : Bool
  ledgerWritten : Bool
  ledger : DownloadOutcome
  display : Option String
deriving Repr

/-- The push branch of `runUpload`: the blob upload succeeds and the
store returns `newVersionId`, then `AddVersion` records the new entry
(the store accepting the ledger write). -/
def runUploadPush (env : Environment) (now : Int)
    (fileHash : String) (fileSize : Int) (user description : String)
    (newVersionId : String) (ledger : DownloadOutcome) : UploadOutcome :=
  let newVersion : Version :=
    { versionID := newVersionId
      hash := fileHash
      timestamp := now
      description := description
      uploadedBy := user
      size := fileSize
      metadata := [] }
  { result := .ok ()
    blobUploaded := true
    ledgerWritten := true
    ledger := addVersionStep env now newVersion ledger
    display := goStringSlice newVersionId 8 }

/-- Embeds the decision core of `runUpload` (src/cmd/upload.go lines
48-137): the error of `GetLatestVersion` is discarded (`latestVer, _`),
and if a latest version exists whose hash equals the local file's hash
the workflow returns immediately without any network write; otherwise
it pushes the blob and appends a ledger entry. -/
def runUpload (env : Environment) (now : Int)
    (fileHash : String) (fileSize : Int) (user description : String)
    (newVersionId : String) (ledger : DownloadOutcome) : UploadOutcome :=
  let latestVer : Option Version :=
    match GetLatestVersion env now ledger with
    | .ok v => some v
    | .error _ => none
  match latestVer with
  | some lv =>
    if lv.hash == fileHash then
      { result := .ok ()
        blobUploaded := false
        ledgerWritten := false
        ledger := ledger
        display := goStringSlice lv.versionID 8 }
    else
      runUploadPush env now fileHash fileSize user description newVersionId ledger
  | none =>
    runUploadPush env now fileHash fileSize user description newVersionId ledger

/-- Embeds `promptYesNo` (src/unnamed/part_022): lower-cased trimmed
input, empty input selects the default, otherwise only y/yes accept. -/
def promptYesNo (input : String) (defaultValue : Bool) : Bool :=
  let s := goToLower (goTrimSpace input)
  if s == "" then defaultValue else s == "y" || s == "yes"

/-- Embeds `Manager.checkApproval` (src/unnamed/part_022 lines 63-71):
prompt only when the environment requires approval and auto-approve is
not set; a declined prompt is the cancellation error. -/
def checkApproval (env : Environment) (autoApprove : Bool)
    (promptInput : String) : Except String Unit :=
  if env.deployment.requireApproval && !autoApprove then
    if !(promptYesNo promptInput false) then
      .error "deployment cancelled by user"
    else .ok ()
  else .ok ()

/-- Embeds `apply.VersionInfo` (src/utils/apply/version.go). -/
structure ApplyVersionInfo where
  version : Version
  isNew : Bool
  sourceFile : String
deriving DecidableEq, Repr

/-- Embeds `terraform.ExecutionResult` as far as the workflows use it. -/
structure TfResult where
  output : String
  duration : Int
deriving DecidableEq, Repr

/-- The deployment record literal built by the apply workflow's
`Manager.recordDeployment` (src/unnamed/part_022 lines 12-44). -/
def mkApplyRecord (env : Environment) (now : Int) (user : String)
    (autoApprove remote : Bool) (vinfo : ApplyVersionInfo)
    (status : String) (errText : Option String) : Record :=
  { timestamp := now
    versionID := vinfo.version.versionID
    deployedBy := user
    command := "apply"
    status := status
    environment := env.name
    parameters :=
      [("AutoApprove", boolString autoApprove),
       ("Remote", boolString remote),
       ("VarFile", vinfo.sourceFile)]
    duration := 0
    errorMessage :=
      match errText with
      | some e => e
      | none => "" }

/-- Embeds the apply workflow's `Manager.recordDeployment`
(src/unnamed/part_022): build the record and `AddRecord` it; an
`AddRecord` failure is downgraded to a warning, leaving the ledger
unchanged.  Returns the deployment-history key state and whether it was
written. -/
def applyRecordDeployment (env : Environment) (now : Int) (user : String)
    (autoApprove remote : Bool) (vinfo : ApplyVersionInfo)
    (status : String) (errText : Option String)
    (dl : DownloadOutcome) : DownloadOutcome × Bool :=
  match AddRecord env now (mkApplyRecord env now user autoApprove remote vinfo status errText) dl with
  | .ok dl2 => (dl2, true)
  | .error _ => (dl, false)

/-- Outcome of `apply.Manager.Execute` or `destroy.Manager.Execute`:
returned error value, resulting deployment-history key state, and
whether that key was written. -/
structure ExecuteOutcome where
  result : Except String Unit
  ledger : DownloadOutcome
  ledgerWritten : Bool
deriving Repr

/-- Embeds `apply.Manager.Execute` (src/utils/apply/terraform.go lines
97-123): resolve the version, check approval, run terraform apply, and
record the deployment on both the failure and the success path.
`versionInfoResult` stands for `getVersionInfo`, `tfResult` for
`runTerraformApply`, and `promptInput` for the operator's answer to the
approval prompt. -/
def applyExecute (env : Environment) (now : Int) (user : String)
    (autoApprove remote : Bool)
    (versionInfoResult : Except String ApplyVersionInfo)
    (promptInput : String)
    (tfResult : Except String TfResult)
    (dl : DownloadOutcome) : ExecuteOutcome :=
  match versionInfoResult with
  | .error e => { result := .error e, ledger := dl, ledgerWritten := false }
  | .ok vinfo =>
    match checkApproval env autoApprove promptInput with
    | .error e => { result := .error e, ledger := dl, ledgerWritten := false }
    | .ok _ =>
      match tfResult with
      | .error e =>
        let st := applyRecordDeployment env now user autoApprove remote vinfo "failed" (some e) dl
        { result := .error e, ledger := st.1, ledgerWritten := st.2 }
      | .ok _ =>
        let st := applyRecordDeployment env now user autoApprove remote vinfo "success" none dl
        { result := .ok (), ledger := st.1, ledgerWritten := st.2 }

/-- Embeds `destroy.VersionInfo` (src/utils/destroy/terraform.go).  The
zero values of the last-deployed fields are `0` and `""`. -/
structure DestroyVersionInfo where
  version : Version
  lastDeployedTime : Int
  lastDeployedBy : String
deriving DecidableEq, Repr

/-- Embeds `destroy.Manager.getVersionToDestroy`
(src/utils/destroy/manager.go lines 61-93): an explicit version id is
looked up in the version ledger; otherwise the version referenced by
the latest deployment record is resolved, and an empty deployment
history is an error. -/
def getVersionToDestroy (env : Environment) (now : Int)
    (versionID : String) (vLedger dLedger : DownloadOutcome) :
    Except String DestroyVersionInfo :=
  if versionID != "" then
    match GetVersion env now vLedger versionID with
    | .error e => .error ("failed to get specified version: " ++ e)
    | .ok ver => .ok { version := ver, lastDeployedTime := 0, lastDeployedBy := "" }
  else
    match GetLatestDeployment env now dLedger with
    | .error e => .error ("failed to get latest deployment: " ++ e)
    | .ok none => .error "no deployment history found"
    | .ok (some lastDeploy) =>
      match GetVersion env now vLedger lastDeploy.versionID with
      | .error e => .error ("failed to get last deployed version: " ++ e)
      | .ok ver =>
        .ok { version := ver
              lastDeployedTime := lastDeploy.timestamp
              lastDeployedBy := lastDeploy.deployedBy }

/-- Embeds the destroy workflow's `Manager.recordDeployment`
(src/utils/destroy/deployment.go lines 12-25): on success it calls
`MarkAsDestroyed` (a MarkAsDestroyed failure is a warning, leaving the
ledger unchanged); on any other status it does nothing at all. -/
def destroyRecordDeployment (env : Environment) (now : Int)
    (status : String) (dl : DownloadOutcome) : DownloadOutcome × Bool :=
  if status == "success" then
    match MarkAsDestroyed env now dl with
    | .ok dl2 => (dl2, true)
    | .error _ => (dl, false)
  else (dl, false)

/-- Embeds `confirmDestroy` (src/utils/destroy/manager.go): typed
confirmation of the exact environment name. -/
def confirmDestroy (envName input : String) : Bool := input == envName

/-- Embeds `destroy.Manager.Execute` (src/utils/destroy/manager.go
lines 28-59): resolve the version to destroy, display the plan
(slicing `VersionID[:8]`), ask for typed confirmation unless
auto-approve, run terraform destroy, and record via the destroy-side
`recordDeployment`.  The second component is the displayed version-id
prefix (`none` = not reached or panic). -/
def destroyExecute (env : Environment) (now : Int)
    (versionID : String) (autoApprove : Bool) (confirmInput : String)
    (tfResult : Except String TfResult)
    (vLedger dLedger : DownloadOutcome) :
    ExecuteOutcome × Option String :=
  match getVersionToDestroy env now versionID vLedger dLedger with
  | .error e =>
    ({ result := .error e, ledger := dLedger, ledgerWritten := false }, none)
  | .ok vinfo =>
    let planDisplay := goStringSlice vinfo.version.versionID 8
    if !autoApprove && !(confirmDestroy env.name confirmInput) then
      ({ result := .error "destroy cancelled by user"
         ledger := dLedger
         ledgerWritten := false }, planDisplay)
    else
      match tfResult with
      | .error e =>
        let st := destroyRecordDeployment env now "failed" dLedger
        ({ result := .error e, ledger := st.1, ledgerWritten := st.2 }, planDisplay)
      | .ok _ =>
        let st := destroyRecordDeployment env now "success" dLedger
        ({ result := .ok (), ledger := st.1, ledgerWritten := st.2 }, planDisplay)

/-- Report printed by the `add` workflow's both-files-present handler. -/
inductive SyncReport where
  | inSync
  | divergent
deriving DecidableEq, Repr

/-- Embeds `handleBothExist` (src/cmd/add.go lines 341-376).
`remoteDownload` is the result of `DownloadFile` on the remote tfvars
object, carrying the remote content (which the source discards with
`_`), and `calculateHash` maps a local path to its content hash.  The
source computes its `remoteHash` by calling `CalculateHash` on
`env.Local.TFVarsPath` — the same local path used for `localHash`. -/
def handleBothExist (env : Environment)
    (remoteDownload : Except String String)
    (calculateHash : String → Except String String) :
    Except String SyncReport :=
  match remoteDownload with
  | .error e => .error ("failed to check remote file: " ++ e)
  | .ok _ =>
    match calculateHash env.localCfg.tfVarsPath with
    | .error e => .error ("failed to calculate local file hash: " ++ e)
    | .ok localHash =>
      match calculateHash env.localCfg.tfVarsPath with
      | .error e => .error ("failed to calculate remote file hash: " ++ e)
      | .ok remoteHash =>
        if localHash == remoteHash then .ok .inSync else .ok .divergent

/-- A sequence of `AddVersion` calls: each call carries the version
being added and the wall-clock instant of the call. -/
def runAddVersions (env : Environment) (init : DownloadOutcome)
    (calls : List (Version × Int)) : DownloadOutcome :=
  calls.foldl (fun dl c => addVersionStep env c.2 c.1 dl) init

/-- List of deployment records held at a deployment-history key. -/
def ledgerDeployments : DownloadOutcome → List Record
  | .ok (.historyDoc h) => h.deployments
  | _ => []

/-- The version-id prefix displayed by the upload workflow
(src/cmd/upload.go lines 73 and 131). -/
def uploadVersionDisplay (v : Version) : Option String :=
  goStringSlice v.versionID 8

/-- The version-id prefix displayed by `displayDestroyPlan`
(src/utils/destroy/manager.go lines 95-106). -/
def destroyPlanVersionDisplay (vi : DestroyVersionInfo) : Option String :=
  goStringSlice vi.version.versionID 8

/-- Concrete environment used to witness the theorems on small inputs. -/
def sampleEnv : Environment :=
  { name := "demo"
    description := ""
    s3 := { bucket := "b", prefixPath := "p", tfVarsKey := "t.tfvars" }
    aws := { accountID := "1", region := "r" }
    localCfg := { tfVarsPath := "envs/demo/t.tfvars" }
    deployment := { autoBackup := true, requireApproval := true }
    backend := { bucket := "b", key := "k", region := "r" } }

/-- First sample version (the older upload, deployed one). -/
def sampleV1 : Version :=
  { versionID := "ver1AAAA", hash := "h1", timestamp := 10
    description := "", uploadedBy := "alice", size := 1, metadata := [] }

/-- Second sample version (the newer upload, never deployed). -/
def sampleV2 : Version :=
  { versionID := "ver2BBBB", hash := "h2", timestamp := 20
    description := "", uploadedBy := "alice", size := 1, metadata := [] }

/-- Sample version-management document: `sampleV2` is the most recently
appended entry, `sampleV1` the older one. -/
def sampleVersionDoc : VersionManagement :=
  { formatVersion := "1.0"
    lastUpdated := 20
    environment := { name := "demo", s3Path := "p/t.tfvars" }
    versions := [sampleV2, sampleV1]
    latestVersionID := "ver2BBBB" }

/-- Sample version-ledger key state. -/
def sampleVLedger : DownloadOutcome := .ok (.versionDoc sampleVersionDoc)

/-- Sample deployment record referencing `sampleV1`. -/
def sampleR1 : Record :=
  { timestamp := 15, versionID := "ver1AAAA", deployedBy := "alice"
    command := "apply", status := "success", environment := "demo"
    parameters := [], duration := 0, errorMessage := "" }

/-- Sample latest-deployment pointer embedding `sampleR1`. -/
def sampleLatest : LatestInfo :=
  { deployment := some sampleR1, status := "active", modifiedTime := 15 }

/-- Sample deployment-history document: one deployment of `sampleV1`,
performed before `sampleV2` was uploaded. -/
def sampleHistory : History :=
  { formatVersion := "1.0"
    environment := "demo"
    latestDeployment := some sampleLatest
    deployments := [sampleR1] }

/-- Sample deployment-ledger key state. -/
def sampleDLedger : DownloadOutcome := .ok (.historyDoc sampleHistory)

/-- Sample apply version info pointing at `sampleV1`. -/
def sampleApplyVinfo : ApplyVersionInfo :=
  { version := sampleV1, isNew := false, sourceFile := "envs/demo/t.tfvars" }

/-- Sample local hasher: the local tfvars file hashes to
`"hash-local-aaa"`. -/
def sampleCalculateHash : String → Except String String := fun path =>
  if path == "envs/demo/t.tfvars" then .ok "hash-local-aaa"
  else .error "no such file"

end Tfvarenv

namespace Tfvarenv

lemma matchesFilter_latestOnly (v : Version) :
    matchesFilter v { latestOnly := true } = true := by
  simp [matchesFilter]

lemma filter_matchesFilter_latestOnly (l : List Version) :
    l.filter (fun v => matchesFilter v { latestOnly := true }) = l := by
  induction l with
  | nil => rfl
  | cons x xs ih => simp [List.filter_cons, matchesFilter_latestOnly, ih]

lemma getLatestVersion_doc (env : Environment) (now : Int)
    (m : VersionManagement) (v : Version) (rest : List Version)
    (hm : m.versions = v :: rest) :
    GetLatestVersion env now (.ok (.versionDoc m)) = .ok v := by
  unfold GetLatestVersion GetVersions getVersionManagement decodeVersionManagement filterVersions
  simp only [hm, filter_matchesFilter_latestOnly]
  cases rest <;> simp

lemma addVersionDoc_versions_eq (env : Environment) (now : Int)
    (v : Version) (dl : DownloadOutcome) :
    (addVersionDoc env now v dl).versions =
      v :: (if 100 ≤ (loadedManagement env now dl).versions.length
            then (loadedManagement env now dl).versions.take 99
            else (loadedManagement env now dl).versions) := by
  unfold addVersionDoc
  by_cases h : 100 ≤ (loadedManagement env now dl).versions.length
  · have hlen : (v :: (loadedManagement env now dl).versions).length > 100 := by
      simp only [List.length_cons]; omega
    simp [hlen, h, List.take_succ_cons]
  · have hlen : ¬ (v :: (loadedManagement env now dl).versions).length > 100 := by
      simp only [List.length_cons]; omega
    simp [hlen, h]
    omega

lemma getLatestVersion_addVersionStep (env : Environment) (now t : Int)
    (v : Version) (dl : DownloadOutcome) :
    GetLatestVersion env now (addVersionStep env t v dl) = .ok v := by
  unfold addVersionStep
  exact getLatestVersion_doc env now _ v _ (addVersionDoc_versions_eq env t v dl)

/-- C1.  For every sequence of AddVersion calls on an environment's
version ledger, GetLatestVersion returns the version most recently
added by AddVersion, regardless of the wall-clock timestamps carried by
the entries: append-order, not timestamp order, determines latest. -/
theorem c1_getLatestVersion_append_order (env : Environment)
    (init : DownloadOutcome) (calls : List (Version × Int))
    (v : Version) (t now : Int) :
    GetLatestVersion env now (runAddVersions env init (calls ++ [(v, t)])) = .ok v := by
  unfold runAddVersions
  rw [List.foldl_append]
  simp only [List.foldl_cons, List.foldl_nil]
  exact getLatestVersion_addVersionStep env now t v _

/-- C3.  Evaluation of the ledger loaders on each download outcome:
object absence yields an empty ledger with no error, and a present but
undecodable object is a hard error — but a network or permission
failure of the download is also silently mapped to an empty ledger
(the code only tests `err != nil`), contradicting the claim that every
non-absence storage failure is surfaced to the caller. -/
theorem c3_storage_error_mapped_to_empty (env : Environment) (now : Int)
    (msg raw : String) :
    getVersionManagement env now (.err (.network msg)) = .ok (emptyVersionManagement env now) ∧
    getVersionManagement env now (.err (.permission msg)) = .ok (emptyVersionManagement env now) ∧
    getVersionManagement env now (.err .notFound) = .ok (emptyVersionManagement env now) ∧
    getVersionManagement env now (.ok (.garbage raw)) = .error "failed to decode version management" ∧
    GetHistory env now (.err (.network msg)) = .ok (emptyHistory env) ∧
    GetHistory env now (.err (.permission msg)) = .ok (emptyHistory env) ∧
    GetHistory env now (.err .notFound) = .ok (emptyHistory env) ∧
    GetHistory env now (.ok (.garbage raw)) = .error "failed to decode deployment history" :=
  ⟨rfl, rfl, rfl, rfl, rfl, rfl, rfl, rfl⟩

/-- C8.  MarkAsDestroyed only rewrites the latest-deployment pointer —
status destroyed, fresh modified-time, embedded record preserved — and
persists the document, leaving the ordered deployment list unchanged;
on an absent (zero-history) ledger it succeeds and creates a pointer
with no embedded record. -/
theorem c8_markAsDestroyed_frame (env : Environment) (now : Int) (h : History) :
    MarkAsDestroyed env now (.ok (.historyDoc h)) =
      .ok (.ok (.historyDoc
        (History.mk h.formatVersion h.environment
          (some (LatestInfo.mk (h.latestDeployment.bind fun li => li.deployment)
            StatusDestroyed now))
          h.deployments))) ∧
    MarkAsDestroyed env now (.err .notFound) =
      .ok (.ok (.historyDoc
        (History.mk HistoryFormatVersion env.name
          (some (LatestInfo.mk none StatusDestroyed now))
          []))) := by
  constructor
  · unfold MarkAsDestroyed GetHistory decodeHistory
    cases hl : h.latestDeployment <;> simp [hl]
  · rfl

/-- C10.  The version-id prefixes displayed by the upload workflow and
by the destroy plan are produced by slicing the first 8 characters of
the store-returned version id; the slice is defined exactly when the
id has at least 8 characters, and a shorter id makes the slice panic
(modelled as `none`). -/
theorem c10_version_display_precondition (v : Version) (vi : DestroyVersionInfo) :
    ((uploadVersionDisplay v).isSome ↔ 8 ≤ v.versionID.length) ∧
    ((destroyPlanVersionDisplay vi).isSome ↔ 8 ≤ vi.version.versionID.length) := by
  constructor
  · unfold uploadVersionDisplay goStringSlice
    split <;> simp_all
  · unfold destroyPlanVersionDisplay goStringSlice
    split <;> simp_all

lemma getLatestVersion_now_irrelevant (env : Environment) (now now2 : Int)
    (dl : DownloadOutcome) (v : Version)
    (h : GetLatestVersion env now dl = .ok v) :
    GetLatestVersion env now2 dl = .ok v := by
  cases dl with
  | err e =>
    unfold GetLatestVersion GetVersions getVersionManagement at h
    simp [emptyVersionManagement, filterVersions] at h
  | ok content =>
    unfold GetLatestVersion GetVersions getVersionManagement at h ⊢
    exact h

lemma runUpload_noop (env : Environment) (now : Int)
    (fileHash : String) (fileSize : Int) (user description newVersionId : String)
    (ledger : DownloadOutcome) (lv : Version)
    (h : GetLatestVersion env now ledger = .ok lv) (hh : lv.hash = fileHash) :
    runUpload env now fileHash fileSize user description newVersionId ledger =
      { result := .ok ()
        blobUploaded := false
        ledgerWritten := false
        ledger := ledger
        display := goStringSlice lv.versionID 8 } := by
  unfold runUpload
  rw [h]
  simp [hh]

lemma runUploadPush_latest (env : Environment) (now : Int)
    (fileHash : String) (fileSize : Int) (user description newVersionId : String)
    (ledger : DownloadOutcome) :
    ∃ w : Version, w.hash = fileHash ∧
      ∀ now2 : Int, GetLatestVersion env now2
        (runUploadPush env now fileHash fileSize user description newVersionId ledger).ledger = .ok w := by
  refine ⟨{ versionID := newVersionId, hash := fileHash, timestamp := now,
            description := description, uploadedBy := user, size := fileSize,
            metadata := [] }, rfl, fun now2 => ?_⟩
  exact getLatestVersion_addVersionStep env now2 now _ ledger

lemma runUpload_latest_hash (env : Environment) (now : Int)
    (fileHash : String) (fileSize : Int) (user description newVersionId : String)
    (ledger : DownloadOutcome) :
    ∃ w : Version, w.hash = fileHash ∧
      ∀ now2 : Int, GetLatestVersion env now2
        (runUpload env now fileHash fileSize user description newVersionId ledger).ledger = .ok w := by
  cases hl : GetLatestVersion env now ledger with
  | ok lv =>
    by_cases hh : lv.hash = fileHash
    · refine ⟨lv, hh, fun now2 => ?_⟩
      rw [runUpload_noop env now fileHash fileSize user description newVersionId ledger lv hl hh]
      exact getLatestVersion_now_irrelevant env now now2 ledger lv hl
    · have hpush : runUpload env now fileHash fileSize user description newVersionId ledger =
          runUploadPush env now fileHash fileSize user description newVersionId ledger := by
        unfold runUpload
        rw [hl]
        simp [hh]
      rw [hpush]
      exact runUploadPush_latest env now fileHash fileSize user description newVersionId ledger
  | error e =>
    have hpush : runUpload env now fileHash fileSize user description newVersionId ledger =
        runUploadPush env now fileHash fileSize user description newVersionId ledger := by
      unfold runUpload
      rw [hl]
    rw [hpush]
    exact runUploadPush_latest env now fileHash fileSize user description newVersionId ledger

/-- C2.  The upload workflow is idempotent on unchanged content: a
second run with the same local content hash performs no blob upload and
no ledger write and leaves the version ledger exactly as the first run
left it, so two runs add at most the one entry the first run added. -/
theorem c2_upload_idempotent (env : Environment) (now1 now2 : Int)
    (fileHash : String) (size1 size2 : Int)
    (user1 user2 desc1 desc2 id1 id2 : String)
    (ledger : DownloadOutcome) :
    (runUpload env now2 fileHash size2 user2 desc2 id2
        (runUpload env now1 fileHash size1 user1 desc1 id1 ledger).ledger).blobUploaded = false ∧
    (runUpload env now2 fileHash size2 user2 desc2 id2
        (runUpload env now1 fileHash size1 user1 desc1 id1 ledger).ledger).ledgerWritten = false ∧
    (runUpload env now2 fileHash size2 user2 desc2 id2
        (runUpload env now1 fileHash size1 user1 desc1 id1 ledger).ledger).ledger =
      (runUpload env now1 fileHash size1 user1 desc1 id1 ledger).ledger ∧
    (runUpload env now2 fileHash size2 user2 desc2 id2
        (runUpload env now1 fileHash size1 user1 desc1 id1 ledger).ledger).result = .ok () := by
  obtain ⟨w, hw, hlat⟩ :=
    runUpload_latest_hash env now1 fileHash size1 user1 desc1 id1 ledger
  rw [runUpload_noop env now2 fileHash size2 user2 desc2 id2 _ w (hlat now2) hw]
  exact ⟨rfl, rfl, rfl, rfl⟩

/-- C9.  AddVersion caps the ledger at 100 retained entries: the
resulting document never holds more than 100 versions, and starting
from any in-cap ledger state the result is the new version followed by
the prior entries, with exactly the oldest (last) prior entry dropped
when the ledger already held 100. -/
theorem c9_addVersion_cap (env : Environment) (now : Int) (v : Version)
    (dl : DownloadOutcome)
    (h : (loadedManagement env now dl).versions.length ≤ 100) :
    (addVersionDoc env now v dl).versions.length ≤ 100 ∧
    (addVersionDoc env now v dl).versions =
      v :: (if (loadedManagement env now dl).versions.length = 100
            then (loadedManagement env now dl).versions.dropLast
            else (loadedManagement env now dl).versions) := by
  have heq := addVersionDoc_versions_eq env now v dl
  by_cases h100 : (loadedManagement env now dl).versions.length = 100
  · constructor
    · rw [heq, if_pos (by omega)]
      simp only [List.length_cons, List.length_take]
      omega
    · rw [heq, if_pos (by omega), if_pos h100, List.dropLast_eq_take, h100]
  · constructor
    · rw [heq, if_neg (by omega)]
      simp only [List.length_cons]
      omega
    · rw [heq, if_neg (by omega), if_neg h100]

/-- C9 witness: AddVersion on the two-entry sample ledger keeps all
prior entries and prepends the new one. -/
theorem c9_addVersion_cap_witness :
    (addVersionDoc sampleEnv 30 sampleV2 sampleVLedger).versions.length ≤ 100 ∧
    (addVersionDoc sampleEnv 30 sampleV2 sampleVLedger).versions =
      sampleV2 :: (if (loadedManagement sampleEnv 30 sampleVLedger).versions.length = 100
            then (loadedManagement sampleEnv 30 sampleVLedger).versions.dropLast
            else (loadedManagement sampleEnv 30 sampleVLedger).versions) :=
  c9_addVersion_cap sampleEnv 30 sampleV2 sampleVLedger (by decide)

lemma insertRecordDesc_perm (r : Record) (l : List Record) :
    (insertRecordDesc r l).Perm (r :: l) := by
  induction l with
  | nil => simp [insertRecordDesc]
  | cons x xs ih =>
    unfold insertRecordDesc
    by_cases hx : x.timestamp < r.timestamp
    · simp [hx]
    · simp only [hx, if_neg]
      exact (ih.cons x).trans (List.Perm.swap r x xs)

lemma sortRecordsDesc_perm (l : List Record) : (sortRecordsDesc l).Perm l := by
  induction l with
  | nil => simp [sortRecordsDesc]
  | cons x xs ih =>
    exact (insertRecordDesc_perm x (sortRecordsDesc xs)).trans (ih.cons x)

lemma sortRecordsDesc_length (l : List Record) :
    (sortRecordsDesc l).length = l.length :=
  (sortRecordsDesc_perm l).length_eq

lemma mem_sortRecordsDesc (r : Record) (l : List Record) :
    r ∈ sortRecordsDesc l ↔ r ∈ l :=
  (sortRecordsDesc_perm l).mem_iff

/-- C6 counterexample: a destroy run whose terraform command fails
leaves the deployment ledger byte-identical and performs no ledger
write at all — no failure record is appended, contradicting the claim
that the destroy workflow appends a deployment record whether the
command succeeded or failed. -/
theorem c6_claim_counterexample :
    (destroyExecute sampleEnv 9 "ver1AAAA" true ""
        (.error "terraform destroy failed") sampleVLedger sampleDLedger).1.ledger
      = sampleDLedger ∧
    (destroyExecute sampleEnv 9 "ver1AAAA" true ""
        (.error "terraform destroy failed") sampleVLedger sampleDLedger).1.ledgerWritten
      = false ∧
    ledgerDeployments
      (destroyExecute sampleEnv 9 "ver1AAAA" true ""
        (.error "terraform destroy failed") sampleVLedger sampleDLedger).1.ledger
      = [sampleR1] ∧
    (destroyExecute sampleEnv 9 "ver1AAAA" true ""
        (.error "terraform destroy failed") sampleVLedger sampleDLedger).1.result
      = .error "terraform destroy failed" :=
  ⟨rfl, rfl, rfl, rfl⟩

/-- C6 (amended).  After the provisioning command completes, the apply
workflow appends exactly one deployment record whether it succeeded or
failed, and a failed apply's record carries status "failed" and the
error text; the destroy workflow appends no record at all: on failure
it leaves the ledger untouched, and on success it only rewrites the
latest-deployment pointer, keeping the record list unchanged. -/
theorem c6_recording_amended (env : Environment) (now : Int) (user : String)
    (autoApprove remote : Bool) (vinfo : ApplyVersionInfo) (err : String)
    (h : History) (st : DownloadOutcome) :
    (ledgerDeployments (applyRecordDeployment env now user autoApprove remote vinfo
        "failed" (some err) (.ok (.historyDoc h))).1).length = h.deployments.length + 1 ∧
    mkApplyRecord env now user autoApprove remote vinfo "failed" (some err) ∈
      ledgerDeployments (applyRecordDeployment env now user autoApprove remote vinfo
        "failed" (some err) (.ok (.historyDoc h))).1 ∧
    (mkApplyRecord env now user autoApprove remote vinfo "failed" (some err)).status = "failed" ∧
    (mkApplyRecord env now user autoApprove remote vinfo "failed" (some err)).errorMessage = err ∧
    (ledgerDeployments (applyRecordDeployment env now user autoApprove remote vinfo
        "success" none (.ok (.historyDoc h))).1).length = h.deployments.length + 1 ∧
    mkApplyRecord env now user autoApprove remote vinfo "success" none ∈
      ledgerDeployments (applyRecordDeployment env now user autoApprove remote vinfo
        "success" none (.ok (.historyDoc h))).1 ∧
    destroyRecordDeployment env now "failed" st = (st, false) ∧
    ledgerDeployments (destroyRecordDeployment env now "success" (.ok (.historyDoc h))).1
      = h.deployments := by
  have happ : ∀ (status : String) (errText : Option String),
      ledgerDeployments (applyRecordDeployment env now user autoApprove remote vinfo
        status errText (.ok (.historyDoc h))).1 =
      sortRecordsDesc (h.deployments ++
        [mkApplyRecord env now user autoApprove remote vinfo status errText]) := by
    intro status errText
    rfl
  refine ⟨?_, ?_, rfl, rfl, ?_, ?_, rfl, ?_⟩
  · rw [happ, sortRecordsDesc_length]
    simp
  · rw [happ, mem_sortRecordsDesc]
    simp
  · rw [happ, sortRecordsDesc_length]
    simp
  · rw [happ, mem_sortRecordsDesc]
    simp
  · rfl

/-- C4.  With no explicit version id, the destroy workflow resolves the
version referenced by the deployment ledger's latest deployment record
— whatever the version ledger currently calls latest — and with no
deployment history it fails instead of falling back to the latest
upload. -/
theorem c4_destroy_resolves_last_deployed (env : Environment) (now : Int)
    (vLedger dLedger : DownloadOutcome) :
    (∀ (r : Record) (ver : Version),
      GetLatestDeployment env now dLedger = .ok (some r) →
      GetVersion env now vLedger r.versionID = .ok ver →
      getVersionToDestroy env now "" vLedger dLedger =
        .ok { version := ver, lastDeployedTime := r.timestamp,
              lastDeployedBy := r.deployedBy }) ∧
    (GetLatestDeployment env now dLedger = .ok none →
      getVersionToDestroy env now "" vLedger dLedger =
        .error "no deployment history found") := by
  constructor
  · intro r ver hlast hver
    unfold getVersionToDestroy
    rw [if_neg (by simp)]
    simp only [hlast, hver]
  · intro hlast
    unfold getVersionToDestroy
    rw [if_neg (by simp)]
    simp only [hlast]

/-- C4 witness: in the sample environment the version ledger's latest
entry is `sampleV2`, but with no explicit id the destroy workflow
resolves `sampleV1`, the version of the last deployment record; the
latest upload is untouched. -/
theorem c4_destroy_resolves_witness :
    GetLatestDeployment sampleEnv 99 sampleDLedger = .ok (some sampleR1) ∧
    GetLatestVersion sampleEnv 99 sampleVLedger = .ok sampleV2 ∧
    getVersionToDestroy sampleEnv 99 "" sampleVLedger sampleDLedger =
      .ok { version := sampleV1, lastDeployedTime := sampleR1.timestamp,
            lastDeployedBy := sampleR1.deployedBy } :=
  ⟨rfl, rfl,
    (c4_destroy_resolves_last_deployed sampleEnv 99 sampleVLedger sampleDLedger).1
      sampleR1 sampleV1 rfl rfl⟩

/-- C5.  An apply on an environment requiring approval, without
auto-approve and with the operator declining the prompt, returns the
cancellation error and leaves the deployment ledger unchanged: no
record appended and no ledger write. -/
theorem c5_apply_declined_unchanged (env : Environment) (now : Int)
    (user : String) (remote : Bool) (vinfo : ApplyVersionInfo)
    (promptInput : String) (tfResult : Except String TfResult)
    (dl : DownloadOutcome)
    (hreq : env.deployment.requireApproval = true)
    (hdecline : promptYesNo promptInput false = false) :
    applyExecute env now user false remote (.ok vinfo) promptInput tfResult dl =
      { result := .error "deployment cancelled by user"
        ledger := dl
        ledgerWritten := false } := by
  unfold applyExecute checkApproval
  rw [hreq, hdecline]
  rfl

/-- C5 witness: declining the prompt with input "n" on the sample
approval-requiring environment cancels and leaves the sample ledger
untouched. -/
theorem c5_apply_declined_witness :
    applyExecute sampleEnv 0 "bob" false false (.ok sampleApplyVinfo) "n"
        (.ok { output := "", duration := 0 }) sampleDLedger =
      { result := .error "deployment cancelled by user"
        ledger := sampleDLedger
        ledgerWritten := false } :=
  c5_apply_declined_unchanged sampleEnv 0 "bob" false sampleApplyVinfo "n"
    (.ok { output := "", duration := 0 }) sampleDLedger (by decide) (by decide)

/-- C7.  The cited both-files-present handler computes its "remote"
hash by hashing the local path a second time, so whenever the remote
object downloads and the local file hashes, it reports "in sync"
regardless of the remote object's actual content — it can never report
divergence.  (It performs no upload, download, or ledger write in any
branch by construction.) -/
theorem c7_handleBothExist_always_in_sync :
    (∀ remoteContent : String,
      handleBothExist sampleEnv (.ok remoteContent) sampleCalculateHash =
        .ok SyncReport.inSync) ∧
    sampleCalculateHash sampleEnv.localCfg.tfVarsPath = .ok "hash-local-aaa" :=
  ⟨fun _ => rfl, rfl⟩

end Tfvarenv
